import Mathlib

/-!
Verification of the TLS tunnel (`tunnel.py`) against its specification.

The Python source is shallowly embedded: byte values are `Nat`s below 256,
byte strings are `List Nat`, machine integers are `Nat` with explicit
masking where the code masks, sockets are modelled by explicit state
records plus oracles for the outcomes of the blocking system calls, and
code that can raise returns `Except` / explicit outcome types.
-/

namespace Tunnel

/-! ## Framed codec: packed varint (BinaryOutputStream.writePackedUInt64 /
BinaryInputStream.readPackedUInt64)

`writePackedLoop n v` is the encoder loop of `writePackedUInt64` with `n`
iterations of the `for _ in range(0, 8)` loop remaining; when the loop is
exhausted the final `writeUInt8(value & 0xff)` emits the terminal byte.
`writePackedUInt64` runs it with the source's 8 iterations. -/

def writePackedLoop : Nat → Nat → List Nat
  | 0, value => [value &&& 0xff]
  | n + 1, value =>
    if value < 1 <<< 7 then [value &&& 0x7f]
    else ((value &&& 0x7f) ||| 0x80) :: writePackedLoop n (value >>> 7)

def writePackedUInt64 (value : Nat) : List Nat :=
  writePackedLoop 8 value

/-- Decoder loop of `readPackedUInt64`: `n` iterations of the
`for _ in range(0, 8)` loop remain, `result`/`offset` are the accumulator
variables, and the input is the stream of bytes still to be read. When the
loop is exhausted one more byte is read and or-ed in whole (`result |=
value8 << offset`). Reading past the end of the stream is `none`. -/
def readPackedLoop : Nat → Nat → Nat → List Nat → Option (Nat × List Nat)
  | 0, result, offset, input =>
    match input with
    | [] => none
    | value8 :: rest => some (result ||| value8 <<< offset, rest)
  | n + 1, result, offset, input =>
    match input with
    | [] => none
    | value8 :: rest =>
      let result1 := result ||| (value8 &&& 0x7f) <<< offset
      if value8 &&& 0x80 = 0 then some (result1, rest)
      else readPackedLoop n result1 (offset + 7) rest

def readPackedUInt64 (input : List Nat) : Option (Nat × List Nat) :=
  readPackedLoop 8 0 0 input

/-! ### Bitwise helper lemmas -/

theorem land_pred_two_pow (x n : Nat) : x &&& (2 ^ n - 1) = x % 2 ^ n := by
  apply Nat.eq_of_testBit_eq
  intro i
  simp [Nat.testBit_land, Nat.testBit_two_pow_sub_one, Nat.testBit_mod_two_pow,
    Bool.and_comm]

theorem land_two_pow_eq_zero (x n : Nat) (h : x < 2 ^ n) : x &&& 2 ^ n = 0 := by
  apply Nat.eq_of_testBit_eq
  intro i
  simp only [Nat.testBit_land, Nat.zero_testBit, Nat.testBit_two_pow]
  by_cases hi : n = i
  · subst hi
    simp [Nat.testBit_lt_two_pow h]
  · simp [hi]

theorem byte_land_127 (a : Nat) (h : a < 2 ^ 7) : (a ||| 2 ^ 7) &&& 127 = a := by
  have h127 : (127 : Nat) = 2 ^ 7 - 1 := by norm_num
  apply Nat.eq_of_testBit_eq
  intro i
  simp only [h127, Nat.testBit_land, Nat.testBit_lor, Nat.testBit_two_pow,
    Nat.testBit_two_pow_sub_one]
  by_cases hi : i < 7
  · have : ¬ (7 = i) := by omega
    simp [hi, this]
  · have : Nat.testBit a i = false := by
      refine Nat.testBit_lt_two_pow (lt_of_lt_of_le h ?_)
      exact Nat.pow_le_pow_right (by norm_num) (by omega)
    simp [hi, this]

theorem byte_land_128 (a : Nat) : (a ||| 2 ^ 7) &&& 128 = 128 := by
  have h128 : (128 : Nat) = 2 ^ 7 := by norm_num
  apply Nat.eq_of_testBit_eq
  intro i
  simp only [h128, Nat.testBit_land, Nat.testBit_lor, Nat.testBit_two_pow]
  by_cases hi : 7 = i
  · simp [hi]
  · simp [hi]

/-- Splitting a value into its low 7 bits and the rest, each shifted into
place, is the same as shifting the whole value: the two contributions
occupy disjoint bit positions. -/
theorem lor_split (x v k : Nat) :
    (x ||| (v &&& 127) <<< k) ||| (v >>> 7) <<< (k + 7) = x ||| v <<< k := by
  have h127 : (127 : Nat) = 2 ^ 7 - 1 := by norm_num
  apply Nat.eq_of_testBit_eq
  intro i
  simp only [h127, Nat.testBit_lor, Nat.testBit_shiftLeft, Nat.testBit_shiftRight,
    Nat.testBit_land, Nat.testBit_two_pow_sub_one]
  by_cases h1 : k ≤ i
  · by_cases h2 : k + 7 ≤ i
    · have hik : ¬ (i - k < 7) := by omega
      have harith : 7 + (i - (k + 7)) = i - k := by omega
      simp [ge_iff_le, h1, h2, hik, harith]
    · have hik : i - k < 7 := by omega
      simp [ge_iff_le, h1, h2, hik]
  · have h2 : ¬ (k + 7 ≤ i) := by omega
    simp [ge_iff_le, h1, h2]

theorem writePackedLoop_length (n v : Nat) : (writePackedLoop n v).length ≤ n + 1 := by
  induction n generalizing v with
  | zero => simp [writePackedLoop]
  | succ n ih =>
    by_cases h : v < 128
    · simp [writePackedLoop, h]
    · simpa [writePackedLoop, h, Nat.succ_le_succ_iff] using ih (v >>> 7)

/-- Generalised round trip of the varint loops: decoding the encoder's
output with matching remaining fuel lands the value at bit position
`offset` of the accumulator and leaves the trailing bytes untouched. -/
theorem readPackedLoop_writePackedLoop :
    ∀ (n result offset v : Nat) (rest : List Nat), v < 2 ^ (7 * n + 8) →
    readPackedLoop n result offset (writePackedLoop n v ++ rest)
      = some (result ||| v <<< offset, rest) := by
  intro n
  induction n with
  | zero =>
    intro result offset v rest hv
    have h255 : v &&& 0xff = v := by
      rw [show (0xff : Nat) = 2 ^ 8 - 1 by norm_num, land_pred_two_pow]
      exact Nat.mod_eq_of_lt (by simpa using hv)
    simp [writePackedLoop, readPackedLoop, h255]
  | succ n ih =>
    intro result offset v rest hv
    by_cases h : v < 128
    · have h7 : v < 2 ^ 7 := by simpa using h
      have hv127 : v &&& 0x7f = v := by
        rw [show (0x7f : Nat) = 2 ^ 7 - 1 by norm_num, land_pred_two_pow]
        exact Nat.mod_eq_of_lt h7
      have hstop : v &&& 0x80 = 0 := by
        rw [show (0x80 : Nat) = 2 ^ 7 by norm_num]
        exact land_two_pow_eq_zero v 7 h7
      simp [writePackedLoop, readPackedLoop, h, hv127, hstop]
    · have hbyte : ((v &&& 0x7f) ||| 0x80) &&& 0x7f = v &&& 127 := by
        have : v &&& 0x7f < 2 ^ 7 := by
          rw [show (0x7f : Nat) = 2 ^ 7 - 1 by norm_num, land_pred_two_pow]
          exact Nat.mod_lt _ (by norm_num)
        simpa [show (0x80 : Nat) = 2 ^ 7 by norm_num] using byte_land_127 (v &&& 0x7f) this
      have hcont : ((v &&& 0x7f) ||| 0x80) &&& 0x80 = 128 := by
        simpa [show (0x80 : Nat) = 2 ^ 7 by norm_num] using byte_land_128 (v &&& 0x7f)
      have hrec : v >>> 7 < 2 ^ (7 * n + 8) := by
        rw [Nat.shiftRight_eq_div_pow]
        rw [Nat.div_lt_iff_lt_mul (by positivity)]
        calc v < 2 ^ (7 * (n + 1) + 8) := hv
        _ = 2 ^ (7 * n + 8) * 2 ^ 7 := by rw [← pow_add]; ring_nf
      calc readPackedLoop (n + 1) result offset (writePackedLoop (n + 1) v ++ rest)
          = readPackedLoop n (result ||| (v &&& 127) <<< offset) (offset + 7)
              (writePackedLoop n (v >>> 7) ++ rest) := by
            simp [writePackedLoop, readPackedLoop, h, hbyte, hcont]
        _ = some ((result ||| (v &&& 127) <<< offset) ||| (v >>> 7) <<< (offset + 7), rest) :=
            ih _ _ _ rest hrec
        _ = some (result ||| v <<< offset, rest) := by rw [lor_split]

theorem readPacked_writePacked (v : Nat) (rest : List Nat) (hv : v < 2 ^ 64) :
    readPackedUInt64 (writePackedUInt64 v ++ rest) = some (v, rest) := by
  have := readPackedLoop_writePackedLoop 8 0 0 v rest (by simpa using hv)
  simpa [readPackedUInt64, writePackedUInt64] using this

/-- Claim C1: for every unsigned 64-bit integer v, decoding
(readPackedUInt64) the bytes produced by encoding v (writePackedUInt64)
yields v (with any trailing bytes untouched), and the encoding is at most
9 bytes long. -/
theorem varint_round_trip (v : Nat) (rest : List Nat) (hv : v < 2 ^ 64) :
    readPackedUInt64 (writePackedUInt64 v ++ rest) = some (v, rest) ∧
    (writePackedUInt64 v).length ≤ 9 :=
  ⟨readPacked_writePacked v rest hv, writePackedLoop_length 8 v⟩

/-- Claim C1 witness: the round trip evaluated at the largest 64-bit value. -/
theorem varint_round_trip_witness :
    18446744073709551615 < 2 ^ 64 ∧
    (readPackedUInt64 (writePackedUInt64 18446744073709551615 ++ []) =
        some (18446744073709551615, []) ∧
      (writePackedUInt64 18446744073709551615).length ≤ 9) :=
  ⟨by norm_num, varint_round_trip 18446744073709551615 [] (by norm_num)⟩

/-! ## Control connection (StreamConnection)

`recv_into` on a blocking socket either delivers some bytes (`ok n`, where
`n = 0` signals orderly end-of-stream and every later `recv` also returns
0), or raises (`exn`, e.g. a reset connection). A socket history is the
finite list of such outcomes the kernel will produce; once the list is
exhausted the stream is at end-of-stream, so further `recv` calls return
`ok 0` forever. -/

inductive RecvResult where
  | ok (n : Nat)
  | exn
deriving DecidableEq

/-- Result of `StreamConnection.read`: it returned `n` bytes (`ok n`), an
exception propagated out of `recv_into` (`exn`), or the given fuel ran out
with the `while read < size` loop still going (`spin`). -/
inductive ReadOutcome where
  | ok (n : Nat)
  | exn
  | spin
deriving DecidableEq

/-- The `while read < size: read += recv_into(view[read:], size - read)`
loop of `StreamConnection.read`. `recv_into` is asked for `size - read`
bytes, so an event offering `n` delivers `min n (size - read)`. `fuel`
bounds the number of loop iterations we observe; `spin` means the bound
was reached with the loop still running. -/
def StreamConnection.readLoop (size : Nat) : Nat → Nat → List RecvResult → ReadOutcome
  | 0, _, _ => .spin
  | fuel + 1, read, evs =>
    if read < size then
      match evs with
      | [] => StreamConnection.readLoop size fuel read []
      | .exn :: _ => .exn
      | .ok n :: rest => StreamConnection.readLoop size fuel (read + min n (size - read)) rest
    else .ok read

def StreamConnection.read (size : Nat) (evs : List RecvResult) (fuel : Nat) : ReadOutcome :=
  StreamConnection.readLoop size fuel 0 evs

theorem readLoop_ok_exact (size : Nat) :
    ∀ (fuel read : Nat) (evs : List RecvResult) (r : Nat), read ≤ size →
    StreamConnection.readLoop size fuel read evs = ReadOutcome.ok r → r = size := by
  intro fuel
  induction fuel with
  | zero => intro read evs r _ h; simp [StreamConnection.readLoop] at h
  | succ fuel ih =>
    intro read evs r hle h
    by_cases hr : read < size
    · match evs with
      | [] =>
        have hstep : StreamConnection.readLoop size (fuel + 1) read [] =
            if read < size then StreamConnection.readLoop size fuel read []
            else .ok read := rfl
        rw [hstep, if_pos hr] at h
        exact ih read [] r hle h
      | .exn :: rest =>
        have hstep : StreamConnection.readLoop size (fuel + 1) read (.exn :: rest) =
            if read < size then ReadOutcome.exn else .ok read := rfl
        rw [hstep, if_pos hr] at h
        exact absurd h (by simp)
      | .ok n :: rest =>
        have hstep : StreamConnection.readLoop size (fuel + 1) read (.ok n :: rest) =
            if read < size then
              StreamConnection.readLoop size fuel (read + min n (size - read)) rest
            else .ok read := rfl
        rw [hstep, if_pos hr] at h
        exact ih _ rest r (by omega) h
    · match evs with
      | [] =>
        have hstep : StreamConnection.readLoop size (fuel + 1) read [] =
            if read < size then StreamConnection.readLoop size fuel read []
            else .ok read := rfl
        rw [hstep, if_neg hr] at h
        cases h
        omega
      | .exn :: rest =>
        have hstep : StreamConnection.readLoop size (fuel + 1) read (.exn :: rest) =
            if read < size then ReadOutcome.exn else .ok read := rfl
        rw [hstep, if_neg hr] at h
        cases h
        omega
      | .ok n :: rest =>
        have hstep : StreamConnection.readLoop size (fuel + 1) read (.ok n :: rest) =
            if read < size then
              StreamConnection.readLoop size fuel (read + min n (size - read)) rest
            else .ok read := rfl
        rw [hstep, if_neg hr] at h
        cases h
        omega

theorem readLoop_eof_spins (size : Nat) :
    ∀ (fuel read : Nat), read < size →
    StreamConnection.readLoop size fuel read [] = ReadOutcome.spin := by
  intro fuel
  induction fuel with
  | zero => intro read _; rfl
  | succ fuel ih =>
    intro read hr
    have hstep : StreamConnection.readLoop size (fuel + 1) read [] =
        if read < size then StreamConnection.readLoop size fuel read [] else .ok read := rfl
    rw [hstep, if_pos hr]
    exact ih read hr

/-- Claim C2, amended: whenever `StreamConnection.read size` returns, it
returns exactly `size` bytes (never fewer), and an exception from
`recv_into` propagates; but when the socket is closed in an orderly way
before `size` bytes arrive (every `recv` returning 0 bytes), the loop
makes no progress and retries `recv` forever — for every iteration bound
the loop is still running — instead of raising a read error. -/
theorem conn_read_exact_or_spins (size : Nat) (hs : 0 < size) :
    (∀ (fuel : Nat) (evs : List RecvResult) (r : Nat),
        StreamConnection.read size evs fuel = ReadOutcome.ok r → r = size) ∧
    (∀ fuel : Nat, StreamConnection.read size [] fuel = ReadOutcome.spin) :=
  ⟨fun fuel evs r h => readLoop_ok_exact size fuel 0 evs r (Nat.zero_le _) h,
   fun fuel => readLoop_eof_spins size fuel 0 hs⟩

/-- Claim C2 witness: at `size = 1` and iteration bound 100. -/
theorem conn_read_exact_or_spins_witness :
    0 < 1 ∧
    ((∀ (fuel : Nat) (evs : List RecvResult) (r : Nat),
        StreamConnection.read 1 evs fuel = ReadOutcome.ok r → r = 1) ∧
      (∀ fuel : Nat, StreamConnection.read 1 [] fuel = ReadOutcome.spin)) :=
  ⟨Nat.one_pos, conn_read_exact_or_spins 1 Nat.one_pos⟩

/-- Claim C2 counterexample: a socket that closes cleanly with 0 of the 1
requested bytes delivered does not produce a read error — after 100 loop
iterations `read` is still spinning on `recv`, so the "fatal read error"
the claim promises never happens. -/
theorem conn_read_partial_close_cex :
    StreamConnection.read 1 [] 100 = ReadOutcome.spin ∧
    StreamConnection.read 1 [] 100 ≠ ReadOutcome.exn := by
  decide

/-! ## Socket state and `StreamConnection.write`

A socket carries the bytes successfully handed to `sendall`, a closed
flag, and an oracle `fail` saying whether `sendall` raises on it. -/

structure Sock where
  sent : List Nat
  closed : Bool
  fail : Bool
deriving DecidableEq

def Sock.sendall (s : Sock) (data : List Nat) : Except Unit Sock :=
  if s.fail || s.closed then .error () else .ok { s with sent := s.sent ++ data }

def Sock.close (s : Sock) : Sock :=
  { s with closed := true }

/-- Method `StreamConnection.write`: `try: self.__sock.sendall(data) except:
self.__sock.close()`, then return. The write lock acquire/release cannot
raise and is elided. The `Except` codomain records where an uncaught
exception would surface as `.error`. -/
def StreamConnection.write (s : Sock) (data : List Nat) : Except Unit Sock :=
  match s.sendall data with
  | .ok s1 => .ok s1
  | .error _ => .ok s.close

/-- Claim C10: `StreamConnection.write` never propagates an exception: it
always returns normally, and when `sendall` raises the socket has merely
been closed. -/
theorem write_never_raises (s : Sock) (data : List Nat) :
    (StreamConnection.write s data).isOk = true ∧
    (s.sendall data = .error () → StreamConnection.write s data = .ok s.close) := by
  unfold StreamConnection.write
  cases h : s.sendall data with
  | ok s1 => exact ⟨rfl, by simp [h]⟩
  | error e => exact ⟨rfl, fun _ => rfl⟩

/-- Claim C10 witness: a socket whose `sendall` raises. -/
theorem write_never_raises_witness :
    (StreamConnection.write (Sock.mk [] false true) [7]).isOk = true ∧
    StreamConnection.write (Sock.mk [] false true) [7] =
      .ok (Sock.mk [] false true).close :=
  ⟨(write_never_raises (Sock.mk [] false true) [7]).1,
   (write_never_raises (Sock.mk [] false true) [7]).2 rfl⟩

/-! ## Message tags and the keep-alive ticker -/

/-- Enum `Message(IntEnum)` with `auto()` values 1..6. -/
inductive Message where
  | Allocate
  | Cid
  | Connect
  | Close
  | Data
  | KeepAlive
deriving DecidableEq

def Message.val : Message → Nat
  | .Allocate => 1
  | .Cid => 2
  | .Connect => 3
  | .Close => 4
  | .Data => 5
  | .KeepAlive => 6

/-- The frame bytes prepared once in `KeepAlive.__init__`:
`writePackedUInt64(Message.KeepAlive)`. -/
def keepAliveFrame : List Nat :=
  writePackedUInt64 Message.KeepAlive.val

/-- Keep-alive ticker state: the running flag and the control-connection
socket. -/
structure KAState where
  running : Bool
  sock : Sock
deriving DecidableEq

/-- One period of `KeepAlive.run` after the 1 s-granularity wait: if still
running, `try: self.__connection.write(...) except:` clear the running
flag. The `except:` arm is taken exactly when `StreamConnection.write`
returns `.error`. -/
def KeepAlive.tick (st : KAState) : KAState :=
  if st.running then
    match StreamConnection.write st.sock keepAliveFrame with
    | .ok s1 => { st with sock := s1 }
    | .error _ => { st with running := false }
  else st

/-- Claim C4: contrary to the claim, a failing keep-alive write does not
clear the running flag: `StreamConnection.write` swallows the `sendall`
exception (closing the socket itself), so the `except:` arm of
`KeepAlive.run` is unreachable and the ticker keeps running. -/
theorem keepalive_flag_survives_write_failure (st : KAState)
    (hr : st.running = true) (hf : st.sock.fail = true) :
    (KeepAlive.tick st).running = true ∧ (KeepAlive.tick st).sock.closed = true := by
  unfold KeepAlive.tick StreamConnection.write Sock.sendall
  simp [hr, hf, Sock.close]

/-- Claim C4 witness: a running ticker on a socket whose `sendall` raises. -/
theorem keepalive_flag_survives_write_failure_witness :
    (KAState.mk true (Sock.mk [] false true)).running = true ∧
    (KAState.mk true (Sock.mk [] false true)).sock.fail = true ∧
    ((KeepAlive.tick (KAState.mk true (Sock.mk [] false true))).running = true ∧
      (KeepAlive.tick (KAState.mk true (Sock.mk [] false true))).sock.closed = true) :=
  ⟨rfl, rfl, keepalive_flag_survives_write_failure (KAState.mk true (Sock.mk [] false true)) rfl rfl⟩

/-! ## CID slots (class Cid) -/

/-- A CID slot: `Cid.__cid`, `Cid.__active`, `Cid.__time` (timestamp of
construction or of the last `activate`/`deactivate`, in seconds). -/
structure CidSlot where
  cid : Nat
  active : Bool
  time : Nat
deriving DecidableEq

/-- Constructor `Cid.__init__(cid)`: inactive, stamped with the current time. -/
def CidSlot.init (now cid : Nat) : CidSlot :=
  { cid := cid, active := false, time := now }

def CidSlot.activate (s : CidSlot) (now : Nat) : CidSlot :=
  { s with active := true, time := now }

def CidSlot.deactivate (s : CidSlot) (now : Nat) : CidSlot :=
  { s with active := false, time := now }

/-- Method `Cid.ready`: not active, and at least `__COOLDOWN_TIME = 60` seconds
since the last stamp. `time.time() - self.__time < 60` over reals agrees
with truncated `Nat` subtraction: both sides reject when `now < time`. -/
def CidSlot.ready (s : CidSlot) (now : Nat) : Bool :=
  if s.active then false
  else if now - s.time < 60 then false
  else true

/-! ## The CID registry (class TunnelConnections)

The live-stream dict `__connections` is an association list with unique
keys; each stream worker is visible to the registry as its local socket
(`written` bytes pushed by `send`, a closed flag, and a `fail` oracle for
whether its `sendall` raises). The control connection and the client-side
`__cids` FIFO play no part in the claims under study and are elided. -/

structure LocalConn where
  written : List Nat
  closedFlag : Bool
  fail : Bool
deriving DecidableEq

/-- Method `TunnelConnection.send(data)`: `self.__sock.sendall(data)`, which
raises if the local socket is dead. -/
def LocalConn.sendall (c : LocalConn) (data : List Nat) : Except Unit LocalConn :=
  if c.fail || c.closedFlag then .error ()
  else .ok { c with written := c.written ++ data }

structure TunnelConnections where
  server : Bool
  connections : List (Nat × LocalConn)
  allocated : List CidSlot
deriving DecidableEq

/-- Statement `del self.__connections[cid]` (under the guard `cid in …`). -/
def eraseConn (m : List (Nat × LocalConn)) (cid : Nat) : List (Nat × LocalConn) :=
  m.filter (fun p => p.1 != cid)

/-- Method `TunnelConnections.__ready`: index of the first slot of `__allocated`
whose `ready()` holds (the Python loop returns the item itself; we return
its position, which the well-formedness invariant equates with its CID). -/
def findReady (now : Nat) : List CidSlot → Option Nat
  | [] => none
  | s :: rest => if s.ready now then some 0 else (findReady now rest).map (· + 1)

/-- Server branch of `TunnelConnections.allocate`: take the first ready
slot, else append a fresh `Cid(len(__allocated))`; activate the chosen
slot and return its `cid()`. -/
def TunnelConnections.allocate (now : Nat) (tc : TunnelConnections) : Nat × TunnelConnections :=
  match findReady now tc.allocated with
  | some i =>
    let slot := (tc.allocated.getD i (CidSlot.init 0 0)).activate now
    (slot.cid, { tc with allocated := tc.allocated.set i slot })
  | none =>
    let fresh := (CidSlot.init now tc.allocated.length).activate now
    (fresh.cid, { tc with allocated := tc.allocated ++ [fresh] })

theorem findReady_some (now : Nat) (d : CidSlot) :
    ∀ (l : List CidSlot) (i : Nat), findReady now l = some i →
    i < l.length ∧ (l.getD i d).ready now = true ∧
      ∀ j, j < i → (l.getD j d).ready now = false := by
  intro l
  induction l with
  | nil => intro i h; simp [findReady] at h
  | cons s rest ih =>
    intro i h
    by_cases hs : s.ready now
    · rw [findReady, if_pos hs] at h
      cases h
      exact ⟨Nat.succ_pos _, by simpa [List.getD] using hs,
        fun j hj => absurd hj (Nat.not_lt_zero j)⟩
    · rw [findReady, if_neg hs] at h
      obtain ⟨k, hk, hki⟩ := Option.map_eq_some'.1 h
      obtain ⟨hlen, hready, hmin⟩ := ih k hk
      subst hki
      refine ⟨by simpa using Nat.succ_lt_succ hlen, by simpa [List.getD] using hready, ?_⟩
      intro j hj
      match j with
      | 0 => simpa [List.getD] using hs
      | j + 1 => simpa [List.getD] using hmin j (by omega)

theorem findReady_none (now : Nat) (d : CidSlot) :
    ∀ (l : List CidSlot), findReady now l = none →
    ∀ j, j < l.length → (l.getD j d).ready now = false := by
  intro l
  induction l with
  | nil => intro _ j hj; simp at hj
  | cons s rest ih =>
    intro h j hj
    by_cases hs : s.ready now
    · rw [findReady, if_pos hs] at h; cases h
    · rw [findReady, if_neg hs] at h
      match j with
      | 0 => simpa [List.getD] using hs
      | j + 1 =>
        have h0 : findReady now rest = none := by
          cases hr : findReady now rest with
          | none => rfl
          | some k => rw [hr] at h; simp at h
        simpa [List.getD] using ih h0 j (by simp only [List.length_cons] at hj; omega)

theorem ready_fields (s : CidSlot) (now : Nat) :
    s.ready now = true ↔ s.active = false ∧ 60 ≤ now - s.time := by
  unfold CidSlot.ready
  by_cases ha : s.active
  · simp [ha]
  · by_cases ht : now - s.time < 60
    · simp [ha, ht]
    · simp [ha, ht]
      omega

theorem allocate_choice_aux (now : Nat) (tc : TunnelConnections)
    (hwf : ∀ j, j < tc.allocated.length →
      (tc.allocated.getD j (CidSlot.init 0 0)).cid = j) :
    ((TunnelConnections.allocate now tc).1 < tc.allocated.length ∧
      (tc.allocated.getD (TunnelConnections.allocate now tc).1 (CidSlot.init 0 0)).active = false ∧
      60 ≤ now - (tc.allocated.getD (TunnelConnections.allocate now tc).1 (CidSlot.init 0 0)).time ∧
      (∀ j, j < (TunnelConnections.allocate now tc).1 →
        (tc.allocated.getD j (CidSlot.init 0 0)).ready now = false) ∧
      (TunnelConnections.allocate now tc).2.allocated.length = tc.allocated.length) ∨
    ((TunnelConnections.allocate now tc).1 = tc.allocated.length ∧
      (∀ j, j < tc.allocated.length →
        (tc.allocated.getD j (CidSlot.init 0 0)).ready now = false) ∧
      (TunnelConnections.allocate now tc).2.allocated.length = tc.allocated.length + 1) := by
  unfold TunnelConnections.allocate
  cases h : findReady now tc.allocated with
  | some i =>
    obtain ⟨hlen, hready, hmin⟩ := findReady_some now (CidSlot.init 0 0) tc.allocated i h
    obtain ⟨hact, htime⟩ := (ready_fields _ now).1 hready
    left
    simp only [CidSlot.activate, hwf i hlen]
    exact ⟨hlen, hact, htime, hmin, by simp⟩
  | none =>
    right
    refine ⟨rfl, findReady_none now (CidSlot.init 0 0) tc.allocated h, by simp⟩

theorem allocate_activates_aux (now : Nat) (tc : TunnelConnections)
    (hwf : ∀ j, j < tc.allocated.length →
      (tc.allocated.getD j (CidSlot.init 0 0)).cid = j) :
    ((TunnelConnections.allocate now tc).2.allocated.getD
        (TunnelConnections.allocate now tc).1 (CidSlot.init 0 0)).active = true ∧
    ((TunnelConnections.allocate now tc).2.allocated.getD
        (TunnelConnections.allocate now tc).1 (CidSlot.init 0 0)).cid =
      (TunnelConnections.allocate now tc).1 := by
  unfold TunnelConnections.allocate
  cases h : findReady now tc.allocated with
  | some i =>
    obtain ⟨hlen, _, _⟩ := findReady_some now (CidSlot.init 0 0) tc.allocated i h
    have hcid : (tc.allocated[i]?.getD (CidSlot.init 0 0)).cid = i := by
      rw [← List.getD_eq_getElem?_getD]
      exact hwf i hlen
    simp only [CidSlot.activate, List.getD_eq_getElem?_getD, hcid,
      List.getElem?_set_self (by simpa using hlen)]
    exact ⟨rfl, rfl⟩
  | none =>
    simp only [CidSlot.activate, CidSlot.init, List.getD_eq_getElem?_getD,
      List.getElem?_concat_length]
    exact ⟨rfl, rfl⟩

/-- Claim C5: in server role every `allocate()` either returns the
smallest index whose slot is inactive with its last stamp at least 60 s
old (all smaller indices not ready), or — when no slot is ready — the
fresh CID `len(__allocated)` appended as a new slot; and the chosen slot
is marked active in the post-state and stores the returned CID. The
hypothesis is the allocator's invariant that slot `j` stores CID `j`
(slots are only ever created as `Cid(len(__allocated))` and appended). -/
theorem allocate_server_spec (now : Nat) (tc : TunnelConnections)
    (hwf : ∀ j, j < tc.allocated.length →
      (tc.allocated.getD j (CidSlot.init 0 0)).cid = j) :
    (((TunnelConnections.allocate now tc).1 < tc.allocated.length ∧
        (tc.allocated.getD (TunnelConnections.allocate now tc).1 (CidSlot.init 0 0)).active = false ∧
        60 ≤ now - (tc.allocated.getD (TunnelConnections.allocate now tc).1 (CidSlot.init 0 0)).time ∧
        (∀ j, j < (TunnelConnections.allocate now tc).1 →
          (tc.allocated.getD j (CidSlot.init 0 0)).ready now = false) ∧
        (TunnelConnections.allocate now tc).2.allocated.length = tc.allocated.length) ∨
      ((TunnelConnections.allocate now tc).1 = tc.allocated.length ∧
        (∀ j, j < tc.allocated.length →
          (tc.allocated.getD j (CidSlot.init 0 0)).ready now = false) ∧
        (TunnelConnections.allocate now tc).2.allocated.length = tc.allocated.length + 1)) ∧
    ((TunnelConnections.allocate now tc).2.allocated.getD
        (TunnelConnections.allocate now tc).1 (CidSlot.init 0 0)).active = true ∧
    ((TunnelConnections.allocate now tc).2.allocated.getD
        (TunnelConnections.allocate now tc).1 (CidSlot.init 0 0)).cid =
      (TunnelConnections.allocate now tc).1 :=
  ⟨allocate_choice_aux now tc hwf,
   (allocate_activates_aux now tc hwf).1, (allocate_activates_aux now tc hwf).2⟩

/-- Claim C5 witness: allocating on a server registry with no slots yields
the appended fresh CID 0. -/
theorem allocate_server_spec_witness :
    (∀ j, j < (TunnelConnections.mk true [] []).allocated.length →
      ((TunnelConnections.mk true [] []).allocated.getD j (CidSlot.init 0 0)).cid = j) ∧
    ((((TunnelConnections.allocate 100 (TunnelConnections.mk true [] [])).1 <
          (TunnelConnections.mk true [] []).allocated.length ∧
        ((TunnelConnections.mk true [] []).allocated.getD
            (TunnelConnections.allocate 100 (TunnelConnections.mk true [] [])).1
            (CidSlot.init 0 0)).active = false ∧
        60 ≤ 100 - ((TunnelConnections.mk true [] []).allocated.getD
            (TunnelConnections.allocate 100 (TunnelConnections.mk true [] [])).1
            (CidSlot.init 0 0)).time ∧
        (∀ j, j < (TunnelConnections.allocate 100 (TunnelConnections.mk true [] [])).1 →
          ((TunnelConnections.mk true [] []).allocated.getD j (CidSlot.init 0 0)).ready 100 = false) ∧
        (TunnelConnections.allocate 100 (TunnelConnections.mk true [] [])).2.allocated.length =
          (TunnelConnections.mk true [] []).allocated.length) ∨
      ((TunnelConnections.allocate 100 (TunnelConnections.mk true [] [])).1 =
          (TunnelConnections.mk true [] []).allocated.length ∧
        (∀ j, j < (TunnelConnections.mk true [] []).allocated.length →
          ((TunnelConnections.mk true [] []).allocated.getD j (CidSlot.init 0 0)).ready 100 = false) ∧
        (TunnelConnections.allocate 100 (TunnelConnections.mk true [] [])).2.allocated.length =
          (TunnelConnections.mk true [] []).allocated.length + 1)) ∧
    ((TunnelConnections.allocate 100 (TunnelConnections.mk true [] [])).2.allocated.getD
        (TunnelConnections.allocate 100 (TunnelConnections.mk true [] [])).1
        (CidSlot.init 0 0)).active = true ∧
    ((TunnelConnections.allocate 100 (TunnelConnections.mk true [] [])).2.allocated.getD
        (TunnelConnections.allocate 100 (TunnelConnections.mk true [] [])).1
        (CidSlot.init 0 0)).cid =
      (TunnelConnections.allocate 100 (TunnelConnections.mk true [] [])).1) :=
  ⟨by decide, allocate_server_spec 100 (TunnelConnections.mk true [] []) (by decide)⟩

/-- A frame written on the control connection, abstracting the byte
sequence `writePackedUInt64 tag ++ payload` the code assembles in a
`MemoryOutputStream`. -/
inductive Frame where
  | data (cid size : Nat)
  | close (cid : Nat)
  | connect (cid port : Nat)
  | cidReply (cid : Nat)
  | allocateReq
  | keepAlive
deriving DecidableEq

/-! ## Registry operations used by the dispatch loop -/

/-- Method `TunnelConnections.remove`: delete the map entry when present; then,
in server role, `self.__allocated[cid].deactivate()` — a Python list
index, which raises `IndexError` (modelled `.error`) when
`cid ≥ len(__allocated)`. -/
def TunnelConnections.remove (now cid : Nat) (tc : TunnelConnections) :
    Except Unit TunnelConnections :=
  let tc1 := if (tc.connections.lookup cid).isSome then
      { tc with connections := eraseConn tc.connections cid }
    else tc
  if tc1.server then
    if h : cid < tc1.allocated.length then
      .ok { tc1 with
        allocated := tc1.allocated.set cid ((tc1.allocated.get ⟨cid, h⟩).deactivate now) }
    else .error ()
  else .ok tc1

/-- Method `TunnelConnection.close()` as observable through the registry: the
worker's closed flag is set and its local socket closed; the map entry
itself stays. -/
def closeWorker (c : LocalConn) : LocalConn :=
  { c with closedFlag := true }

/-- Method `TunnelConnections.close`: cooperative shutdown of the worker for
`cid` when present, no-op otherwise. -/
def TunnelConnections.close (cid : Nat) (tc : TunnelConnections) : TunnelConnections :=
  match tc.connections.lookup cid with
  | none => tc
  | some _ =>
    { tc with connections :=
        tc.connections.map (fun p => if p.1 == cid then (p.1, closeWorker p.2) else p) }

/-- Method `TunnelConnections.send`: forward `data` to the worker's local socket
when the CID is known (its `sendall` may raise, which propagates), and
silently drop the bytes when it is not. -/
def TunnelConnections.send (cid : Nat) (data : List Nat) (tc : TunnelConnections) :
    Except Unit TunnelConnections :=
  match tc.connections.lookup cid with
  | none => .ok tc
  | some c =>
    match c.sendall data with
    | .ok c1 =>
      let m := tc.connections.map (fun p => if p.1 == cid then (p.1, c1) else p)
      .ok { tc with connections := m }
    | .error _ => .error ()

/-- The `Message.Close` arm of the dispatch loop:
`connections.close(cid); connections.remove(cid)`. An `.error` escapes to
the supervisor's outer `except:` and tears the session down. -/
def handleClose (now cid : Nat) (tc : TunnelConnections) : Except Unit TunnelConnections :=
  TunnelConnections.remove now cid (TunnelConnections.close cid tc)

/-- Outcome of the `Message.Connect` arm: the frames written back on the
control connection, whether a dial (`socket.connect`) was attempted, and
the resulting registry state or an escaped exception. -/
structure ConnectOutcome where
  frames : List Frame
  dialed : Bool
  result : Except Unit TunnelConnections

/-- The `Message.Connect` arm of the dispatch loop. Inside the `try:`,
a `port not in args.forward` check raises before any socket is created;
otherwise the dial is attempted (`dialOk` is the oracle for whether
`socket.connect` succeeds) and on success the worker is registered and
started. The `except:` arm emits `Close(cid)` and calls
`connections.remove(cid)` — whose own `IndexError` would escape. -/
def handleConnect (now : Nat) (forward : List Nat) (dialOk : Bool) (cid port : Nat)
    (tc : TunnelConnections) : ConnectOutcome :=
  if port ∈ forward then
    if dialOk then
      { frames := [],
        dialed := true,
        result := .ok { tc with
          connections := (cid, LocalConn.mk [] false false) :: tc.connections } }
    else
      { frames := [Frame.close cid],
        dialed := true,
        result := TunnelConnections.remove now cid tc }
  else
    { frames := [Frame.close cid],
      dialed := false,
      result := TunnelConnections.remove now cid tc }

/-- The `Message.Data` arm of the dispatch loop: read a packed cid, a
packed size, then exactly `size` payload bytes from the control stream,
and `connections.send(cid, data)`. `none` models a stream too short to
satisfy the blocking reads; `some (.error ())` an exception escaping to
the supervisor. Returns the registry state and the unconsumed stream. -/
def dispatchData (input : List Nat) (tc : TunnelConnections) :
    Option (Except Unit (TunnelConnections × List Nat)) :=
  match readPackedUInt64 input with
  | none => none
  | some (cid, rest1) =>
    match readPackedUInt64 rest1 with
    | none => none
    | some (size, rest2) =>
      if size ≤ rest2.length then
        some ((TunnelConnections.send cid (rest2.take size) tc).map
          (fun tc1 => (tc1, rest2.drop size)))
      else none

/-! ### Lemmas about the live-stream map -/

theorem lookup_eraseConn_self (cid : Nat) :
    ∀ m : List (Nat × LocalConn), (eraseConn m cid).lookup cid = none := by
  intro m
  induction m with
  | nil => rfl
  | cons p rest ih =>
    obtain ⟨k, v⟩ := p
    show (List.filter (fun p => p.1 != cid) ((k, v) :: rest)).lookup cid = none
    by_cases hk : k = cid
    · have hbne : ((k, v).1 != cid) = false := by simp [hk]
      rw [List.filter_cons, hbne, if_neg (by simp)]
      exact ih
    · have hbne : ((k, v).1 != cid) = true := by simpa using hk
      have hbeq : (cid == k) = false := by simpa using Ne.symm hk
      rw [List.filter_cons, hbne, if_pos rfl, List.lookup_cons, hbeq]
      exact ih

theorem lookup_eraseConn_ne (cid c : Nat) (hc : c ≠ cid) :
    ∀ m : List (Nat × LocalConn), (eraseConn m cid).lookup c = m.lookup c := by
  intro m
  induction m with
  | nil => rfl
  | cons p rest ih =>
    obtain ⟨k, v⟩ := p
    show (List.filter (fun p => p.1 != cid) ((k, v) :: rest)).lookup c
      = ((k, v) :: rest).lookup c
    by_cases hk : k = cid
    · have hbne : ((k, v).1 != cid) = false := by simp [hk]
      have hbeq : (c == k) = false := by
        subst hk
        simpa using hc
      rw [List.filter_cons, hbne, if_neg (by simp), List.lookup_cons, hbeq]
      exact ih
    · have hbne : ((k, v).1 != cid) = true := by simpa using hk
      rw [List.filter_cons, hbne, if_pos rfl, List.lookup_cons, List.lookup_cons]
      cases hck : c == k with
      | true => rfl
      | false => exact ih

theorem lookup_none_eraseConn (cid : Nat) :
    ∀ m : List (Nat × LocalConn), m.lookup cid = none → eraseConn m cid = m := by
  intro m
  induction m with
  | nil => intro _; rfl
  | cons p rest ih =>
    intro h
    obtain ⟨k, v⟩ := p
    rw [List.lookup_cons] at h
    cases hck : cid == k with
    | true => rw [hck] at h; cases h
    | false =>
      rw [hck] at h
      have hbne : ((k, v).1 != cid) = true := by
        have hne : ¬ cid = k := by simpa using hck
        simpa using fun hkc => hne hkc.symm
      show List.filter (fun p => p.1 != cid) ((k, v) :: rest) = (k, v) :: rest
      rw [List.filter_cons, hbne, if_pos rfl]
      exact congrArg (List.cons (k, v)) (ih h)

/-- In client role `remove` always returns normally, deleting the CID
from the map. -/
theorem remove_client (now cid : Nat) (tc : TunnelConnections) (hs : tc.server = false) :
    TunnelConnections.remove now cid tc =
      .ok { tc with connections := eraseConn tc.connections cid } := by
  obtain ⟨s, conns, alloc⟩ := tc
  simp only at hs
  subst hs
  unfold TunnelConnections.remove
  by_cases hp : (List.lookup cid conns).isSome
  · simp [hp]
  · have hnone : List.lookup cid conns = none := by
      cases hl : List.lookup cid conns with
      | none => rfl
      | some c => rw [hl] at hp; simp at hp
    simp [hp, lookup_none_eraseConn cid conns hnone]

/-- In server role with `cid` inside the slot list, `remove` returns
normally, deleting the CID from the map and deactivating slot `cid`. -/
theorem remove_server_in (now cid : Nat) (tc : TunnelConnections) (hs : tc.server = true)
    (h : cid < tc.allocated.length) :
    TunnelConnections.remove now cid tc =
      .ok { tc with
        connections := eraseConn tc.connections cid,
        allocated := tc.allocated.set cid ((tc.allocated.get ⟨cid, h⟩).deactivate now) } := by
  obtain ⟨s, conns, alloc⟩ := tc
  simp only at hs h
  subst hs
  unfold TunnelConnections.remove
  by_cases hp : (List.lookup cid conns).isSome
  · simp [hp, h]
  · have hnone : List.lookup cid conns = none := by
      cases hl : List.lookup cid conns with
      | none => rfl
      | some c => rw [hl] at hp; simp at hp
    simp [hp, h, lookup_none_eraseConn cid conns hnone]

/-- In server role with `cid` outside the slot list, `remove` raises
`IndexError`. -/
theorem remove_server_out (now cid : Nat) (tc : TunnelConnections) (hs : tc.server = true)
    (h : tc.allocated.length ≤ cid) :
    TunnelConnections.remove now cid tc = .error () := by
  obtain ⟨s, conns, alloc⟩ := tc
  simp only at hs h
  subst hs
  unfold TunnelConnections.remove
  by_cases hp : (List.lookup cid conns).isSome
  · simp [hp, Nat.not_lt_of_ge h]
  · simp [hp, Nat.not_lt_of_ge h]

/-- Claim C3, counterexample to the claim as stated: in server role a
`Close` for a CID that was never allocated makes
`self.__allocated[cid].deactivate()` raise `IndexError`, which escapes
the dispatch arm and is fatal to the session — not a no-op. -/
theorem close_unknown_cid_cex :
    handleClose 0 7 (TunnelConnections.mk true [] []) = .error () := rfl

/-- Claim C3, amended: a `Close` for an unknown CID is a no-op in client
role; in server role it deactivates slot `cid` (restamping its cooldown
time) when `cid < len(__allocated)` and raises `IndexError` (session
teardown) when `cid ≥ len(__allocated)`. -/
theorem close_unknown_cid_spec (now cid : Nat) (tc : TunnelConnections)
    (hcid : tc.connections.lookup cid = none) :
    (tc.server = false → handleClose now cid tc = .ok tc) ∧
    (tc.server = true → ∀ h : cid < tc.allocated.length,
      handleClose now cid tc = .ok { tc with
        allocated := tc.allocated.set cid ((tc.allocated.get ⟨cid, h⟩).deactivate now) }) ∧
    (tc.server = true → tc.allocated.length ≤ cid →
      handleClose now cid tc = .error ()) := by
  have hclose : TunnelConnections.close cid tc = tc := by
    unfold TunnelConnections.close
    rw [hcid]
  have herase := lookup_none_eraseConn cid tc.connections hcid
  unfold handleClose
  rw [hclose]
  refine ⟨fun hs => ?_, fun hs h => ?_, fun hs h => remove_server_out now cid tc hs h⟩
  · rw [remove_client now cid tc hs, herase]
  · rw [remove_server_in now cid tc hs h, herase]

/-- Claim C3 witness (amended claim, client role): closing an unknown CID
leaves the registry untouched. -/
theorem close_unknown_cid_spec_witness :
    (TunnelConnections.mk false [(1, LocalConn.mk [] false false)] []).connections.lookup 7
        = none ∧
    (((TunnelConnections.mk false [(1, LocalConn.mk [] false false)] []).server = false →
      handleClose 5 7 (TunnelConnections.mk false [(1, LocalConn.mk [] false false)] [])
        = .ok (TunnelConnections.mk false [(1, LocalConn.mk [] false false)] [])) ∧
    ((TunnelConnections.mk false [(1, LocalConn.mk [] false false)] []).server = true →
      ∀ h : 7 < (TunnelConnections.mk false [(1, LocalConn.mk [] false false)] []).allocated.length,
      handleClose 5 7 (TunnelConnections.mk false [(1, LocalConn.mk [] false false)] [])
        = .ok { TunnelConnections.mk false [(1, LocalConn.mk [] false false)] [] with
            allocated :=
              (TunnelConnections.mk false [(1, LocalConn.mk [] false false)] []).allocated.set 7
                (((TunnelConnections.mk false [(1, LocalConn.mk [] false false)] []).allocated.get
                    ⟨7, h⟩).deactivate 5) }) ∧
    ((TunnelConnections.mk false [(1, LocalConn.mk [] false false)] []).server = true →
      (TunnelConnections.mk false [(1, LocalConn.mk [] false false)] []).allocated.length ≤ 7 →
      handleClose 5 7 (TunnelConnections.mk false [(1, LocalConn.mk [] false false)] [])
        = .error ())) :=
  ⟨by decide, close_unknown_cid_spec 5 7
    (TunnelConnections.mk false [(1, LocalConn.mk [] false false)] []) (by decide)⟩

/-- Claim C7, counterexample to the claim as stated: on a server whose
slot list does not reach `cid`, the `connections.remove(cid)` inside the
rejection arm raises `IndexError`, which escapes the `except:` block and
kills the session — the session does not survive every policy-rejected
`Connect`. -/
theorem connect_reject_cex :
    (handleConnect 0 [] true 0 80 (TunnelConnections.mk true [] [])).result
      = .error () := rfl

/-- Claim C7, amended: an inbound `Connect(cid, port)` with `port` outside
the local forward set emits exactly one `Close(cid)` back to the peer and
attempts no dial; the local removal succeeds and the session survives in
client role, and in server role when `cid < len(__allocated)` (where the
slot is also deactivated), while in server role with
`cid ≥ len(__allocated)` the removal raises `IndexError` and the session
dies. -/
theorem connect_reject_spec (now cid port : Nat) (forward : List Nat) (dialOk : Bool)
    (tc : TunnelConnections) (hport : port ∉ forward) :
    (handleConnect now forward dialOk cid port tc).frames = [Frame.close cid] ∧
    (handleConnect now forward dialOk cid port tc).dialed = false ∧
    (tc.server = false →
      (handleConnect now forward dialOk cid port tc).result =
        .ok { tc with connections := eraseConn tc.connections cid }) ∧
    (tc.server = true → ∀ h : cid < tc.allocated.length,
      (handleConnect now forward dialOk cid port tc).result =
        .ok { tc with
          connections := eraseConn tc.connections cid,
          allocated := tc.allocated.set cid ((tc.allocated.get ⟨cid, h⟩).deactivate now) }) ∧
    (tc.server = true → tc.allocated.length ≤ cid →
      (handleConnect now forward dialOk cid port tc).result = .error ()) := by
  unfold handleConnect
  rw [if_neg hport]
  exact ⟨rfl, rfl, fun hs => remove_client now cid tc hs,
    fun hs h => remove_server_in now cid tc hs h,
    fun hs h => remove_server_out now cid tc hs h⟩

/-- Claim C7 witness (amended claim, client role): rejecting
`Connect(4, 80)` when only port 22 is forwarded. -/
theorem connect_reject_spec_witness :
    (80 : Nat) ∉ [22] ∧
    ((handleConnect 9 [22] true 4 80
        (TunnelConnections.mk false [(4, LocalConn.mk [] false false)] [])).frames
        = [Frame.close 4] ∧
    (handleConnect 9 [22] true 4 80
        (TunnelConnections.mk false [(4, LocalConn.mk [] false false)] [])).dialed = false ∧
    ((TunnelConnections.mk false [(4, LocalConn.mk [] false false)] []).server = false →
      (handleConnect 9 [22] true 4 80
          (TunnelConnections.mk false [(4, LocalConn.mk [] false false)] [])).result =
        .ok { TunnelConnections.mk false [(4, LocalConn.mk [] false false)] [] with
          connections :=
            eraseConn (TunnelConnections.mk false [(4, LocalConn.mk [] false false)] []).connections 4 }) ∧
    ((TunnelConnections.mk false [(4, LocalConn.mk [] false false)] []).server = true →
      ∀ h : 4 < (TunnelConnections.mk false [(4, LocalConn.mk [] false false)] []).allocated.length,
      (handleConnect 9 [22] true 4 80
          (TunnelConnections.mk false [(4, LocalConn.mk [] false false)] [])).result =
        .ok { TunnelConnections.mk false [(4, LocalConn.mk [] false false)] [] with
          connections :=
            eraseConn (TunnelConnections.mk false [(4, LocalConn.mk [] false false)] []).connections 4,
          allocated :=
            (TunnelConnections.mk false [(4, LocalConn.mk [] false false)] []).allocated.set 4
              (((TunnelConnections.mk false [(4, LocalConn.mk [] false false)] []).allocated.get
                  ⟨4, h⟩).deactivate 9) }) ∧
    ((TunnelConnections.mk false [(4, LocalConn.mk [] false false)] []).server = true →
      (TunnelConnections.mk false [(4, LocalConn.mk [] false false)] []).allocated.length ≤ 4 →
      (handleConnect 9 [22] true 4 80
          (TunnelConnections.mk false [(4, LocalConn.mk [] false false)] [])).result
        = .error ())) :=
  ⟨by decide, connect_reject_spec 9 4 80 [22] true
    (TunnelConnections.mk false [(4, LocalConn.mk [] false false)] []) (by decide)⟩

/-- Claim C8: an inbound `Data(cid, size, bytes)` frame whose `cid` is not
in the live-stream map has its payload read in full off the control
stream and is then silently dropped: no exception, no write to any local
socket, and the registry state `tc` is returned unchanged. -/
theorem data_unknown_cid_dropped (cid size : Nat) (payload rest : List Nat)
    (tc : TunnelConnections) (hcid : tc.connections.lookup cid = none)
    (hc : cid < 2 ^ 64) (hs : size < 2 ^ 64) (hlen : payload.length = size) :
    dispatchData (writePackedUInt64 cid ++ (writePackedUInt64 size ++ (payload ++ rest))) tc
      = some (.ok (tc, rest)) := by
  have h1 := readPacked_writePacked cid (writePackedUInt64 size ++ (payload ++ rest)) hc
  have h2 := readPacked_writePacked size (payload ++ rest) hs
  have htake : (payload ++ rest).take size = payload := List.take_left' hlen
  have hdrop : (payload ++ rest).drop size = rest := List.drop_left' hlen
  have hle : size ≤ (payload ++ rest).length := by
    rw [List.length_append]
    omega
  have hsend : TunnelConnections.send cid payload tc = .ok tc := by
    unfold TunnelConnections.send
    rw [hcid]
  simp only [dispatchData, h1, h2, hle, if_true, htake, hdrop, hsend, Except.map]

/-- Claim C8 witness: `Data(3, 2, [9, 8])` on an empty registry, with a
trailing byte left on the stream. -/
theorem data_unknown_cid_dropped_witness :
    (TunnelConnections.mk false [] []).connections.lookup 3 = none ∧
    (3 : Nat) < 2 ^ 64 ∧ (2 : Nat) < 2 ^ 64 ∧ ([9, 8] : List Nat).length = 2 ∧
    dispatchData (writePackedUInt64 3 ++ (writePackedUInt64 2 ++ ([9, 8] ++ [5])))
        (TunnelConnections.mk false [] [])
      = some (.ok (TunnelConnections.mk false [] [], [5])) :=
  ⟨rfl, by norm_num, by norm_num, rfl,
   data_unknown_cid_dropped 3 2 [9, 8] [5] (TunnelConnections.mk false [] [])
     rfl (by norm_num) (by norm_num) rfl⟩

/-! ## Stream worker (TunnelConnection.run)

The read loop over the worker's local socket, driven by the list of
`recv_into` outcomes. A read of `n+1` bytes produces a `Data(cid, n+1)`
frame on the control connection (`connections.write` is
`StreamConnection.write`, which never raises — see `write_never_raises`);
a zero-length read raises `Exception("Socket closed")`, and that or an
exception from `recv` is caught by the bare `except:` and breaks the
loop. The returned flag records whether the loop was left at all (an
unterminated outcome list leaves the worker blocked in `recv`). -/

def TunnelConnection.runLoop (cid : Nat) : List RecvResult → List Frame × Bool
  | [] => ([], false)
  | .exn :: _ => ([], true)
  | .ok 0 :: _ => ([], true)
  | .ok (n + 1) :: rest =>
    let r := TunnelConnection.runLoop cid rest
    (Frame.data cid (n + 1) :: r.1, r.2)

/-- Method `TunnelConnection.run`: the loop followed by the epilogue. `closed` is
the value of `self.__closed` when the loop is left (set by `close()`); on
the uncooperative path a `Close(cid)` frame is emitted and
`connections.remove(cid)` is called — the second component reports that
call. `none` means the loop was never left. -/
def TunnelConnection.run (cid : Nat) (closed : Bool) (evs : List RecvResult) :
    Option (List Frame × Bool) :=
  match TunnelConnection.runLoop cid evs with
  | (_, false) => none
  | (fs, true) =>
    if closed then some (fs, false) else some (fs ++ [Frame.close cid], true)

def Frame.isClose : Frame → Bool
  | .close _ => true
  | _ => false

theorem runLoop_frames_data (cid : Nat) :
    ∀ evs : List RecvResult, ∀ f ∈ (TunnelConnection.runLoop cid evs).1,
    ∃ n : Nat, f = Frame.data cid (n + 1) := by
  intro evs
  induction evs with
  | nil => intro f hf; simp [TunnelConnection.runLoop] at hf
  | cons e rest ih =>
    intro f hf
    match e with
    | .exn => simp [TunnelConnection.runLoop] at hf
    | .ok 0 => simp [TunnelConnection.runLoop] at hf
    | .ok (n + 1) =>
      rw [show (TunnelConnection.runLoop cid (.ok (n + 1) :: rest)).1 =
          Frame.data cid (n + 1) :: (TunnelConnection.runLoop cid rest).1 from rfl] at hf
      cases hf with
      | head => exact ⟨n, rfl⟩
      | tail _ hf => exact ih f hf

theorem runLoop_no_close (cid : Nat) (evs : List RecvResult) :
    (TunnelConnection.runLoop cid evs).1.countP Frame.isClose = 0 := by
  rw [List.countP_eq_zero]
  intro f hf
  obtain ⟨n, rfl⟩ := runLoop_frames_data cid evs f hf
  simp [Frame.isClose]

/-- Claim C6: a worker that leaves its read loop emits exactly one
`Close(cid)` frame and reports the removal iff it was not closed
cooperatively; a cooperatively closed worker emits no `Close` and does
not remove itself. -/
theorem worker_close_emission (cid : Nat) (closed : Bool) (evs : List RecvResult)
    (fs : List Frame) (removed : Bool)
    (h : TunnelConnection.run cid closed evs = some (fs, removed)) :
    (closed = false →
      fs.countP Frame.isClose = 1 ∧ Frame.close cid ∈ fs ∧ removed = true) ∧
    (closed = true → fs.countP Frame.isClose = 0 ∧ removed = false) := by
  unfold TunnelConnection.run at h
  cases hl : TunnelConnection.runLoop cid evs with
  | mk fs0 exited =>
    rw [hl] at h
    cases exited with
    | false => simp at h
    | true =>
      have hcount : fs0.countP Frame.isClose = 0 := by
        have := runLoop_no_close cid evs
        rw [hl] at this
        exact this
      cases closed with
      | false =>
        cases h
        refine ⟨fun _ => ⟨?_, ?_, rfl⟩, fun hcl => nomatch hcl⟩
        · rw [List.countP_append, hcount]
          rfl
        · exact List.mem_append_right fs0 (List.mem_singleton.2 rfl)
      | true =>
        cases h
        constructor
        · intro hcl
          exact nomatch hcl
        · intro _
          exact ⟨hcount, rfl⟩

/-- Claim C6 witness: a worker that saw one 3-byte read and then a reset,
not cooperatively closed. -/
theorem worker_close_emission_witness :
    TunnelConnection.run 5 false [.ok 3, .exn]
        = some ([Frame.data 5 3, Frame.close 5], true) ∧
    (((false : Bool) = false →
      ([Frame.data 5 3, Frame.close 5] : List Frame).countP Frame.isClose = 1 ∧
        Frame.close 5 ∈ ([Frame.data 5 3, Frame.close 5] : List Frame) ∧ (true : Bool) = true) ∧
    ((false : Bool) = true →
      ([Frame.data 5 3, Frame.close 5] : List Frame).countP Frame.isClose = 0 ∧
        (true : Bool) = false)) :=
  ⟨by decide, worker_close_emission 5 false [.ok 3, .exn]
    [Frame.data 5 3, Frame.close 5] true (by decide)⟩

/-- Claim C9: a stream worker never emits a zero-length `Data` frame —
every `Data` frame produced by a finished worker has positive size, and a
zero-byte `recv` immediately terminates the read loop without emitting a
frame for it. -/
theorem worker_no_empty_data (cid : Nat) (closed : Bool) (evs : List RecvResult)
    (fs : List Frame) (removed : Bool)
    (h : TunnelConnection.run cid closed evs = some (fs, removed)) :
    (∀ c s, Frame.data c s ∈ fs → 0 < s) ∧
    TunnelConnection.runLoop cid (RecvResult.ok 0 :: evs) = ([], true) := by
  refine ⟨?_, rfl⟩
  intro c s hmem
  have hdata : ∀ f ∈ fs, f ∈ (TunnelConnection.runLoop cid evs).1 ∨ f = Frame.close cid := by
    unfold TunnelConnection.run at h
    cases hl : TunnelConnection.runLoop cid evs with
    | mk fs0 exited =>
      rw [hl] at h
      cases exited with
      | false => simp at h
      | true =>
        cases closed with
        | false =>
          cases h
          intro f hf
          rcases List.mem_append.1 hf with hf0 | hf1
          · exact Or.inl hf0
          · exact Or.inr (List.mem_singleton.1 hf1)
        | true =>
          cases h
          exact fun f hf => Or.inl hf
  rcases hdata _ hmem with hin | heq
  · obtain ⟨n, hn⟩ := runLoop_frames_data cid evs _ hin
    cases hn
    omega
  · cases heq

/-- Claim C9 witness: a worker that saw a 1-byte read and then EOF while
cooperatively closed. -/
theorem worker_no_empty_data_witness :
    TunnelConnection.run 2 true [.ok 1, .ok 0] = some ([Frame.data 2 1], false) ∧
    ((∀ c s, Frame.data c s ∈ ([Frame.data 2 1] : List Frame) → 0 < s) ∧
      TunnelConnection.runLoop 2 (RecvResult.ok 0 :: [.ok 1, .ok 0]) = ([], true)) :=
  ⟨by decide, worker_no_empty_data 2 true [.ok 1, .ok 0] [Frame.data 2 1] false (by decide)⟩

end Tunnel
